import Mathlib

/-!
Verification of the subprocess-execution layer of
`ExportScripts/export_standalone_monolithic_windows.py`.

The embedding models, from the source:
  - `bytes.decode` with the error modes `ignore` (the one the source uses)
    and `replace` (the one the spec text describes), over byte lists;
  - `enqueue_output` (the background reader thread): it calls
    `iter(out.readline, b'')`, so it enqueues exactly the newline-delimited
    lines of the child output, independent of how the pipe chunks bytes;
  - the polling loop `CLICommand._poll_process`, the final drain and stderr
    read of `CLICommand._cleanup_process`, and `CLICommand.run`, as a small
    state machine driven by an explicit interleaving schedule of four
    events: the reader thread's `readline` returning the next line, the
    reader thread's `queue.put` of that line (these are two distinct
    statements of `enqueue_output`, and the thread can be preempted between
    them), the child exiting, and one iteration of the main thread loop;
  - `safe_kill_processes` with explicit (abstract) time, 30 time units per
    `proc.wait(timeout=30)` call;
  - `process_command` with its empty-argument guard.

Exceptions inside the monitoring loop (for example a logging sink that
raises, which the spec explicitly allows as "any object accepting leveled
text messages") are modelled by a predicate `lf` on the logged line: when it
holds, `self.logger.info(log_line)` raises, and control transfers to the
`except Exception as err: self.logger.error(err); raise err` clause of
`CLICommand.run`.
-/

set_option maxRecDepth 8000

namespace ExportMono

/-- Error mode of `bytes.decode`. The source calls `decode('utf-8', 'ignore')`;
the spec text instead describes the `replace` mode. Both are modelled so the
two behaviours can be compared. -/
inductive DecodeErrMode
  | ignore
  | replace
  deriving DecidableEq

/-- Is `b` a UTF-8 continuation byte (0x80 to 0xBF)? -/
def isCont (b : Nat) : Bool := 0x80 ≤ b && b ≤ 0xBF

/-- Value carried by a continuation byte. -/
def contVal (b : Nat) : Nat := b - 0x80

/-- Valid second-byte ranges for a three-byte sequence (per start byte,
excluding overlongs and surrogates, as CPython's strict UTF-8 decoder does). -/
def cont2ok3 (b b2 : Nat) : Bool :=
  if b = 0xE0 then 0xA0 ≤ b2 && b2 ≤ 0xBF
  else if b = 0xED then 0x80 ≤ b2 && b2 ≤ 0x9F
  else isCont b2

/-- Valid second-byte ranges for a four-byte sequence (per start byte,
excluding overlongs and values above U+10FFFF). -/
def cont2ok4 (b b2 : Nat) : Bool :=
  if b = 0xF0 then 0x90 ≤ b2 && b2 ≤ 0xBF
  else if b = 0xF4 then 0x80 ≤ b2 && b2 ≤ 0x8F
  else isCont b2

/-- What a decode error contributes to the output: nothing under `ignore`,
one U+FFFD replacement character under `replace`. -/
def errOut (mode : DecodeErrMode) : List Nat :=
  match mode with
  | .ignore => []
  | .replace => [0xFFFD]

/-- UTF-8 decoding of a byte list to a code-point list, with the given error
mode and an explicit recursion budget (every step consumes at least one
byte, so a budget of the list length is always enough; the budget keeps the
recursion structural and hence kernel-evaluable). Invalid prefixes are
consumed one maximal subpart at a time, as CPython's decoder does. -/
def utf8DecodeFuel (mode : DecodeErrMode) : Nat → List Nat → List Nat
  | _, [] => []
  | 0, _ :: _ => []
  | n + 1, b :: rest =>
    if b < 0x80 then b :: utf8DecodeFuel mode n rest
    else if 0xC2 ≤ b && b ≤ 0xDF then
      match rest with
      | b2 :: rest2 =>
        if isCont b2 then
          ((b - 0xC0) * 0x40 + contVal b2) :: utf8DecodeFuel mode n rest2
        else errOut mode ++ utf8DecodeFuel mode n (b2 :: rest2)
      | [] => errOut mode
    else if 0xE0 ≤ b && b ≤ 0xEF then
      match rest with
      | b2 :: rest2 =>
        if cont2ok3 b b2 then
          match rest2 with
          | b3 :: rest3 =>
            if isCont b3 then
              ((b - 0xE0) * 0x1000 + contVal b2 * 0x40 + contVal b3) ::
                utf8DecodeFuel mode n rest3
            else errOut mode ++ utf8DecodeFuel mode n (b3 :: rest3)
          | [] => errOut mode
        else errOut mode ++ utf8DecodeFuel mode n (b2 :: rest2)
      | [] => errOut mode
    else if 0xF0 ≤ b && b ≤ 0xF4 then
      match rest with
      | b2 :: rest2 =>
        if cont2ok4 b b2 then
          match rest2 with
          | b3 :: rest3 =>
            if isCont b3 then
              match rest3 with
              | b4 :: rest4 =>
                if isCont b4 then
                  ((b - 0xF0) * 0x40000 + contVal b2 * 0x1000 +
                    contVal b3 * 0x40 + contVal b4) :: utf8DecodeFuel mode n rest4
                else errOut mode ++ utf8DecodeFuel mode n (b4 :: rest4)
              | [] => errOut mode
            else errOut mode ++ utf8DecodeFuel mode n (b3 :: rest3)
          | [] => errOut mode
        else errOut mode ++ utf8DecodeFuel mode n (b2 :: rest2)
      | [] => errOut mode
    else errOut mode ++ utf8DecodeFuel mode n rest

/-- UTF-8 decode of a byte list to code points. -/
def utf8DecodeCore (mode : DecodeErrMode) (bs : List Nat) : List Nat :=
  utf8DecodeFuel mode bs.length bs

/-- Model of `bs.decode('utf-8', mode)` producing a string. -/
def decodeBytes (mode : DecodeErrMode) (bs : List Nat) : String :=
  String.mk ((utf8DecodeCore mode bs).map Char.ofNat)

/-- Helper for `splitLinesBytes`: `cur` holds the current line reversed. -/
def splitLinesAux (cur : List Nat) : List Nat → List (List Nat)
  | [] => if cur.isEmpty then [] else [cur.reverse]
  | b :: rest =>
    if b = 10 then (cur.reverse ++ [10]) :: splitLinesAux [] rest
    else splitLinesAux (b :: cur) rest

/-- Lines yielded by `iter(out.readline, b'')` in `enqueue_output`: the
newline-terminated lines of the byte stream (a last unterminated line is
yielded without a newline), independent of pipe chunking. Every yielded line
is non-empty, so the terminating `b''` sentinel is never enqueued and the
`if not line: break` branches of the polling and drain loops are dead code. -/
def splitLinesBytes (bs : List Nat) : List (List Nat) := splitLinesAux [] bs

/-- Python `str.split` on a single newline separator, over the character
list of a string (`"".split sep` gives `[""]`, a trailing separator yields a
trailing empty entry). -/
def splitOnNlChars : List Char → List (List Char)
  | [] => [[]]
  | c :: rest =>
    if c = '\n' then [] :: splitOnNlChars rest
    else
      match splitOnNlChars rest with
      | [] => [[c]]
      | l :: ls => (c :: l) :: ls

/-- Model of `err_txt.split("\n")`. -/
def pySplitNl (s : String) : List String :=
  (splitOnNlChars s.data).map (fun cs => String.mk cs)

/-- Severities of the logging sink used by the Runner. -/
inductive LogLevel
  | info
  | warning
  | error
  deriving DecidableEq

/-- A `Popen` handle inside `safe_kill_processes`, with abstract time.
`exitTime` is the absolute time at which the process exits on its own
(`none` when it never would); `exitCode` the status it exits with then;
`rc` the cached `Popen.returncode` (set by a previous `poll` or `wait`);
`ignoresKill` models a child the kill signal fails to bring down;
`killRaises` models `proc.kill()` itself raising; `logRaises` models the
logging call inside `on_terminate` raising. -/
structure PTimed where
  exitTime : Option Nat
  exitCode : Int
  rc : Option Int
  ignoresKill : Bool
  killRaises : Bool
  logRaises : Bool
  deriving DecidableEq

/-- Effect of `proc.kill()` issued at time `t`: a raise is caught by the
caller; `Popen.send_signal` returns at once when `returncode` is already
set; an already-exited process keeps its exit status; otherwise the process
dies now with status 1 (`TerminateProcess(handle, 1)`) unless it ignores the
kill. -/
def procKillAt (t : Nat) (p : PTimed) : PTimed :=
  if p.killRaises then p
  else if p.rc.isSome then p
  else
    match p.exitTime with
    | some d =>
      if d ≤ t then p
      else if p.ignoresKill then p else { p with exitTime := some t, exitCode := 1 }
    | none =>
      if p.ignoresKill then p else { p with exitTime := some t, exitCode := 1 }

/-- Log entries of the kill loop of `safe_kill_processes`: one info entry
per process (the Terminating message), plus an error entry when the kill
raised and was caught. -/
def killPhaseLogs : List PTimed → List LogLevel
  | [] => []
  | p :: ps =>
    LogLevel.info :: ((if p.killRaises then [LogLevel.error] else []) ++ killPhaseLogs ps)

/-- Result of the wait loop of `safe_kill_processes`: final handles, the
absolute time when the loop ended, how many times `on_terminate` ran, and
whether a `TimeoutExpired` was caught (which abandons the rest of the loop,
since the `try` wraps the whole `for`). -/
structure WLRes where
  procs : List PTimed
  now : Nat
  termLogCount : Nat
  timedOut : Bool
  deriving DecidableEq

/-- The `for proc in processes: proc.wait(timeout=30); on_terminate(proc)`
loop, started at time `t`. `wait` returns at once when `returncode` is
cached or the process has already exited; otherwise it blocks until the
exit time when that comes within 30 time units, else raises
`TimeoutExpired` after 30 time units, caught by the surrounding `except`. -/
def waitLoop : List PTimed → Nat → WLRes
  | [], t => ⟨[], t, 0, false⟩
  | p :: ps, t =>
    match p.rc with
    | some _ =>
      let r := waitLoop ps t
      ⟨p :: r.procs, r.now, r.termLogCount + 1, r.timedOut⟩
    | none =>
      match p.exitTime with
      | some d =>
        if d ≤ t then
          let r := waitLoop ps t
          ⟨{ p with rc := some p.exitCode } :: r.procs, r.now, r.termLogCount + 1,
            r.timedOut⟩
        else if d ≤ t + 30 then
          let r := waitLoop ps d
          ⟨{ p with rc := some p.exitCode } :: r.procs, r.now, r.termLogCount + 1,
            r.timedOut⟩
        else ⟨p :: ps, t + 30, 0, true⟩
      | none => ⟨p :: ps, t + 30, 0, true⟩

/-- Outcome of one `safe_kill_processes` call. The function always returns
normally: every exception inside it is caught by one of its `except`
clauses, which is why the model is a total function into this record. -/
structure SKOutcome where
  procs : List PTimed
  elapsed : Nat
  killLogs : List LogLevel
  termLogCount : Nat
  timedOut : Bool
  deriving DecidableEq

/-- Model of `safe_kill_processes`: kill every process (each kill immediate,
at time 0), then run the wait loop. -/
def safe_kill_processes (procs : List PTimed) : SKOutcome :=
  let killed := procs.map (procKillAt 0)
  let r := waitLoop killed 0
  { procs := r.procs, elapsed := r.now, killLogs := killPhaseLogs procs,
    termLogCount := r.termLogCount, timedOut := r.timedOut }

/-- Behaviour of one child process: the status it exits with, the bytes it
writes to its standard-output pipe, and the bytes it writes to its
standard-error pipe. -/
structure Child where
  exitCode : Int
  stdout : List Nat
  stderr : List Nat
  deriving DecidableEq

/-- Interleaving events while the child runs. The body of `enqueue_output`
is `for line in iter(out.readline, b''): queue.put(line)`: `readerRead` is
`out.readline()` returning the next line into the loop variable, and
`readerPut` is the subsequent `queue.put(line)`; the reader thread can be
preempted between the two, so a line can sit in the loop variable while the
main thread runs. `childExits` is the child process exiting; `main` is one
loop iteration of the main thread. -/
inductive Ev
  | readerRead
  | readerPut
  | childExits
  | main
  deriving DecidableEq

/-- Main-thread position: inside the `while process.poll() is None` loop of
`_poll_process`; inside the `while not queue.empty()` drain of
`_cleanup_process`; past the drain (about to read stderr and kill); or
aborted because an exception escaped the loop into the `except` clause of
`run`. -/
inductive Phase
  | poll
  | flush
  | done
  | aborted
  deriving DecidableEq

/-- Interleaved state of one execution: lines the reader thread has not yet
read from the pipe, the queue contents, the line `readline` has returned
but `queue.put` has not yet handed over (the loop variable of
`enqueue_output`, at most one line), `self._stdout_lines`, the child status
(`none` while running), the cached `Popen.returncode`, and the main-thread
phase. -/
structure MState where
  pending : List (List Nat)
  queue : List (List Nat)
  inflight : Option (List Nat)
  captured : List String
  status : Option Int
  rc : Option Int
  phase : Phase
  deriving DecidableEq

/-- State right after `Popen` succeeded and the reader thread started. -/
def initState (c : Child) : MState :=
  { pending := splitLinesBytes c.stdout, queue := [], inflight := none, captured := [],
    status := none, rc := none, phase := .poll }

/-- One interleaving step. `lf txt` holds when `self.logger.info(txt)`
raises; the line has already been appended to `self._stdout_lines` at that
point, and the exception moves the main thread to the `except` clause of
`run` (phase `aborted`). An `Empty` queue inside `_poll_process` is caught
and the loop just iterates again. -/
def stepEv (c : Child) (lf : String → Bool) (s : MState) : Ev → MState
  | .readerRead =>
    match s.inflight with
    | some _ => s
    | none =>
      match s.pending with
      | [] => s
      | l :: rest => { s with pending := rest, inflight := some l }
  | .readerPut =>
    match s.inflight with
    | none => s
    | some l => { s with inflight := none, queue := s.queue ++ [l] }
  | .childExits =>
    match s.status with
    | some _ => s
    | none => { s with status := some c.exitCode }
  | .main =>
    match s.phase with
    | .poll =>
      match s.status with
      | some code => { s with rc := some code, phase := .flush }
      | none =>
        match s.queue with
        | [] => s
        | l :: q =>
          let txt := decodeBytes .ignore l
          if lf txt then { s with queue := q, captured := s.captured ++ [txt], phase := .aborted }
          else { s with queue := q, captured := s.captured ++ [txt] }
    | .flush =>
      match s.queue with
      | [] => { s with phase := .done }
      | l :: q =>
        let txt := decodeBytes .ignore l
        if lf txt then { s with queue := q, captured := s.captured ++ [txt], phase := .aborted }
        else { s with queue := q, captured := s.captured ++ [txt] }
    | .done => s
    | .aborted => s

/-- Run the machine from the post-spawn state under a schedule. -/
def exec (c : Child) (lf : String → Bool) (sched : List Ev) : MState :=
  sched.foldl (stepEv c lf) (initState c)

/-- Return-or-raise outcome of `CLICommand.run`. -/
inductive RunRet
  | ok (code : Int)
  | raised (msg : String)
  deriving DecidableEq

/-- Whether `run` returned normally. -/
def RunRet.isOk : RunRet → Bool
  | .ok _ => true
  | .raised _ => false

/-- Observable outcome of one `CLICommand.run` call: the returned status or
the propagated exception, the `stdout_lines` and `stderr_lines` properties
of the object afterwards, the severity and text of the stderr log emitted at
the end (when any), whether `safe_kill_processes` was reached, and whether
the `except` clause of `run` logged an error. -/
structure RunOutcome where
  result : RunRet
  stdout_lines : List String
  stderr_lines : List String
  stderrLog : Option (LogLevel × String)
  killed : Bool
  errorLogged : Bool
  deriving DecidableEq

/-- View of the single `Popen` handle of `run` as a `safe_kill_processes`
argument, at the moment `_cleanup_process` calls it: if the child has
exited it did so in the past (time 0 of the kill call) with its status; the
handle raises nothing on its own. -/
def toTimed (s : MState) : PTimed :=
  { exitTime := match s.status with | some _ => some 0 | none => none
    exitCode := s.status.getD 1
    rc := s.rc
    ignoresKill := false
    killRaises := false
    logRaises := false }

/-- Tail of `run` after the drain loop ended: read the whole stderr pipe,
call `safe_kill_processes(process)`, set `ret = process.returncode`, and if
any stderr bytes were read, log them at error severity when `bool(ret)` and
warning severity otherwise, storing `err_txt.split("\n")` into
`self._stderr_lines`. -/
def finishRun (c : Child) (s : MState) : RunOutcome :=
  let sk := safe_kill_processes [toTimed s]
  let retc : Option Int := (sk.procs.headD (toTimed s)).rc
  let ret : Int := retc.getD 1
  let errTxt := decodeBytes .ignore c.stderr
  { result := RunRet.ok ret
    stdout_lines := s.captured
    stderr_lines := if c.stderr.isEmpty then [] else pySplitNl errTxt
    stderrLog :=
      if c.stderr.isEmpty then none
      else some ((if ret ≠ 0 then LogLevel.error else LogLevel.warning), errTxt)
    killed := true
    errorLogged := false }

/-- Outcome of the `except Exception as err: self.logger.error(err); raise err`
clause when the spawn itself failed: `Popen` is the first statement of the
`try`, so `self._stdout_lines` and `self._stderr_lines` still hold the empty
lists set in `__init__`, no return value is produced, and the explicit
termination step never runs. -/
def spawnFailOutcome : RunOutcome :=
  { result := RunRet.raised "spawn failure", stdout_lines := [], stderr_lines := [],
    stderrLog := none, killed := false, errorLogged := true }

/-- Outcome of the same `except` clause when an exception escaped the
polling or drain loop: the error is logged, the exception re-raised, and
`safe_kill_processes` is never reached. -/
def abortOutcome (c : Child) (lf : String → Bool) (sched : List Ev) : RunOutcome :=
  { result := RunRet.raised "monitoring exception"
    stdout_lines := (exec c lf sched).captured
    stderr_lines := [], stderrLog := none, killed := false, errorLogged := true }

/-- Model of `CLICommand.run`. `spawn` is `none` when `Popen` raises (for
example the executable does not exist) and carries the child behaviour
otherwise. The result is `none` for a schedule too short for the call to
have returned yet. -/
def CLICommand.run (spawn : Option Child) (lf : String → Bool) (sched : List Ev) :
    Option RunOutcome :=
  match spawn with
  | none => some spawnFailOutcome
  | some c =>
    match (exec c lf sched).phase with
    | Phase.done => some (finishRun c (exec c lf sched))
    | Phase.aborted => some (abortOutcome c lf sched)
    | Phase.poll => none
    | Phase.flush => none

/-- Observable outcome of `process_command`. -/
structure PCOutcome where
  ret : RunRet
  configErrorLogged : Bool
  spawned : Bool
  deriving DecidableEq

/-- Model of `process_command`: an empty argument list is rejected with a
logged configuration error and the value 1 before any `CLICommand` is
built; otherwise the call delegates to `CLICommand(args, ...).run()`. -/
def process_command (args : List String) (spawn : Option Child) (lf : String → Bool)
    (sched : List Ev) : Option PCOutcome :=
  if args.length = 0 then some { ret := RunRet.ok 1, configErrorLogged := true, spawned := false }
  else
    (CLICommand.run spawn lf sched).map
      (fun out => { ret := out.result, configErrorLogged := false, spawned := true })

end ExportMono


namespace ExportMono

/-- Execution invariant of the polling machine for child `c`: the child
status is either unset or the child exit status, likewise the cached
returncode; once the main thread has left the polling loop the returncode
caches the child exit status; and the output lines are split, in order,
between the captured lines, the queue, the line in the reader thread loop
variable when there is one, and the unread backlog. -/
structure Inv (c : Child) (s : MState) : Prop where
  status_ok : s.status = none ∨ s.status = some c.exitCode
  rc_ok : s.rc = none ∨ s.rc = some c.exitCode
  phase_rc : s.phase = Phase.flush ∨ s.phase = Phase.done →
    s.rc = some c.exitCode ∧ s.status = some c.exitCode
  decomp : ∃ taken,
    splitLinesBytes c.stdout = taken ++ s.queue ++ s.inflight.toList ++ s.pending ∧
    s.captured = taken.map (decodeBytes DecodeErrMode.ignore)

theorem inv_init (c : Child) : Inv c (initState c) := by
  refine ⟨Or.inl rfl, Or.inl rfl, ?_, [], ?_, rfl⟩
  · intro h
    rcases h with h | h <;> simp [initState] at h
  · simp [initState]

theorem inv_step (c : Child) (lf : String → Bool) (s : MState) (e : Ev)
    (h : Inv c s) : Inv c (stepEv c lf s e) := by
  obtain ⟨pend, qu, infl, cap, st, rc0, ph⟩ := s
  obtain ⟨hst, hrc, hpr, taken, hdec, hcap⟩ := h
  replace hst : st = none ∨ st = some c.exitCode := hst
  replace hrc : rc0 = none ∨ rc0 = some c.exitCode := hrc
  replace hpr : ph = Phase.flush ∨ ph = Phase.done →
      rc0 = some c.exitCode ∧ st = some c.exitCode := hpr
  replace hdec : splitLinesBytes c.stdout = taken ++ qu ++ infl.toList ++ pend := hdec
  replace hcap : cap = taken.map (decodeBytes DecodeErrMode.ignore) := hcap
  cases e with
  | readerRead =>
    cases infl with
    | some l => exact ⟨hst, hrc, hpr, taken, hdec, hcap⟩
    | none =>
      cases pend with
      | nil => exact ⟨hst, hrc, hpr, taken, hdec, hcap⟩
      | cons l rest =>
        refine ⟨hst, hrc, hpr, taken, ?_, hcap⟩
        show splitLinesBytes c.stdout = taken ++ qu ++ (some l).toList ++ rest
        rw [hdec]
        simp
  | readerPut =>
    cases infl with
    | none => exact ⟨hst, hrc, hpr, taken, hdec, hcap⟩
    | some l =>
      refine ⟨hst, hrc, hpr, taken, ?_, hcap⟩
      show splitLinesBytes c.stdout
          = taken ++ (qu ++ [l]) ++ (none : Option (List Nat)).toList ++ pend
      rw [hdec]
      simp
  | childExits =>
    cases st with
    | some v => exact ⟨hst, hrc, hpr, taken, hdec, hcap⟩
    | none =>
      refine ⟨Or.inr rfl, hrc, ?_, taken, hdec, hcap⟩
      intro hor
      have h2 := (hpr hor).2
      simp at h2
  | main =>
    cases ph with
    | poll =>
      cases st with
      | some code =>
        have hcode : code = c.exitCode := by
          rcases hst with h1 | h1
          · simp at h1
          · exact Option.some.inj h1
        subst hcode
        exact ⟨hst, Or.inr rfl, fun _ => ⟨rfl, rfl⟩, taken, hdec, hcap⟩
      | none =>
        cases qu with
        | nil => exact ⟨hst, hrc, hpr, taken, hdec, hcap⟩
        | cons l q =>
          simp only [stepEv]
          split
          · refine ⟨hst, hrc, ?_, taken ++ [l], ?_, ?_⟩
            · intro hor
              rcases hor with h1 | h1 <;> simp at h1
            · show splitLinesBytes c.stdout = (taken ++ [l]) ++ q ++ infl.toList ++ pend
              rw [hdec]
              simp
            · show cap ++ [decodeBytes DecodeErrMode.ignore l]
                  = (taken ++ [l]).map (decodeBytes DecodeErrMode.ignore)
              rw [hcap]
              simp
          · refine ⟨hst, hrc, ?_, taken ++ [l], ?_, ?_⟩
            · intro hor
              rcases hor with h1 | h1 <;> simp at h1
            · show splitLinesBytes c.stdout = (taken ++ [l]) ++ q ++ infl.toList ++ pend
              rw [hdec]
              simp
            · show cap ++ [decodeBytes DecodeErrMode.ignore l]
                  = (taken ++ [l]).map (decodeBytes DecodeErrMode.ignore)
              rw [hcap]
              simp
    | flush =>
      cases qu with
      | nil =>
        refine ⟨hst, hrc, ?_, taken, hdec, hcap⟩
        intro _
        exact hpr (Or.inl rfl)
      | cons l q =>
        simp only [stepEv]
        split
        · refine ⟨hst, hrc, ?_, taken ++ [l], ?_, ?_⟩
          · intro hor
            rcases hor with h1 | h1 <;> simp at h1
          · show splitLinesBytes c.stdout = (taken ++ [l]) ++ q ++ infl.toList ++ pend
            rw [hdec]
            simp
          · show cap ++ [decodeBytes DecodeErrMode.ignore l]
                = (taken ++ [l]).map (decodeBytes DecodeErrMode.ignore)
            rw [hcap]
            simp
        · refine ⟨hst, hrc, ?_, taken ++ [l], ?_, ?_⟩
          · intro _
            exact hpr (Or.inl rfl)
          · show splitLinesBytes c.stdout = (taken ++ [l]) ++ q ++ infl.toList ++ pend
            rw [hdec]
            simp
          · show cap ++ [decodeBytes DecodeErrMode.ignore l]
                = (taken ++ [l]).map (decodeBytes DecodeErrMode.ignore)
            rw [hcap]
            simp
    | done => exact ⟨hst, hrc, hpr, taken, hdec, hcap⟩
    | aborted => exact ⟨hst, hrc, hpr, taken, hdec, hcap⟩

theorem inv_foldl (c : Child) (lf : String → Bool) (sched : List Ev) (s : MState)
    (h : Inv c s) : Inv c (sched.foldl (stepEv c lf) s) := by
  induction sched generalizing s with
  | nil => exact h
  | cons e rest ih => exact ih _ (inv_step c lf s e h)

theorem inv_exec (c : Child) (lf : String → Bool) (sched : List Ev) :
    Inv c (exec c lf sched) :=
  inv_foldl c lf sched _ (inv_init c)

theorem run_done (c : Child) (lf : String → Bool) (sched : List Ev)
    (hdone : (exec c lf sched).phase = Phase.done) :
    CLICommand.run (some c) lf sched = some (finishRun c (exec c lf sched)) := by
  have h : CLICommand.run (some c) lf sched =
      match (exec c lf sched).phase with
      | Phase.done => some (finishRun c (exec c lf sched))
      | Phase.aborted => some (abortOutcome c lf sched)
      | Phase.poll => none
      | Phase.flush => none := rfl
  rw [h, hdone]

/-- A `safe_kill_processes` call on one process that has already been
polled to completion (returncode cached, kill raising nothing): the kill is
the no-op branch of `Popen.send_signal`, the wait returns at once, and the
confirmed termination is logged. -/
theorem sk_single_reaped (p : PTimed) (v : Int) (hv : p.rc = some v)
    (hk : p.killRaises = false) :
    (safe_kill_processes [p]).procs = [p] ∧ (safe_kill_processes [p]).elapsed = 0 ∧
      (safe_kill_processes [p]).termLogCount = 1 ∧
      (safe_kill_processes [p]).timedOut = false := by
  simp [safe_kill_processes, waitLoop, procKillAt, hv, hk]

theorem finishRun_fields (c : Child) (s : MState)
    (hrc : s.rc = some c.exitCode) (hst : s.status = some c.exitCode) :
    finishRun c s =
      { result := RunRet.ok c.exitCode
        stdout_lines := s.captured
        stderr_lines := if c.stderr.isEmpty then []
                        else pySplitNl (decodeBytes DecodeErrMode.ignore c.stderr)
        stderrLog :=
          if c.stderr.isEmpty then none
          else some ((if c.exitCode ≠ 0 then LogLevel.error else LogLevel.warning),
                     decodeBytes DecodeErrMode.ignore c.stderr)
        killed := true
        errorLogged := false } := by
  have hp : (toTimed s).rc = some c.exitCode := by simp [toTimed, hrc]
  have hk : (toTimed s).killRaises = false := by simp [toTimed]
  obtain ⟨h1, -, -, -⟩ := sk_single_reaped (toTimed s) c.exitCode hp hk
  simp [finishRun, h1, hp]

theorem killPhaseLogs_len (ps : List PTimed) : ps.length ≤ (killPhaseLogs ps).length := by
  induction ps with
  | nil => simp [killPhaseLogs]
  | cons p ps ih =>
    cases hp : p.killRaises <;> simp [killPhaseLogs, hp] <;> omega

theorem waitLoop_now_le (ps : List PTimed) (t : Nat) :
    (waitLoop ps t).now ≤ t + 30 * ps.length := by
  induction ps generalizing t with
  | nil => simp [waitLoop]
  | cons p ps ih =>
    cases hrc : p.rc with
    | some v =>
      have h := ih t
      simp [waitLoop, hrc] <;> omega
    | none =>
      cases het : p.exitTime with
      | some d =>
        by_cases h1 : d ≤ t
        · have h := ih t
          simp [waitLoop, hrc, het, h1] <;> omega
        · by_cases h2 : d ≤ t + 30
          · have h := ih d
            simp [waitLoop, hrc, het, h1, h2] <;> omega
          · simp [waitLoop, hrc, het, h1, h2] <;> omega
      | none =>
        simp [waitLoop, hrc, het] <;> omega

theorem waitLoop_complete (ps : List PTimed) (t : Nat)
    (h : (waitLoop ps t).timedOut = false) :
    (waitLoop ps t).termLogCount = ps.length := by
  induction ps generalizing t with
  | nil => simp [waitLoop]
  | cons p ps ih =>
    cases hrc : p.rc with
    | some v =>
      simp [waitLoop, hrc] at h ⊢
      have h2 := ih t h
      omega
    | none =>
      cases het : p.exitTime with
      | some d =>
        by_cases h1 : d ≤ t
        · simp [waitLoop, hrc, het, h1] at h ⊢
          have h2 := ih t h
          omega
        · by_cases h2 : d ≤ t + 30
          · simp [waitLoop, hrc, het, h1, h2] at h ⊢
            have h3 := ih d h
            omega
          · simp [waitLoop, hrc, het, h1, h2] at h
      | none =>
        simp [waitLoop, hrc, het] at h

/-- A logging sink that never raises. -/
def noLogFail : String → Bool := fun _ => false

/-- Child exiting with status 5 after writing the line x to stdout. -/
def childFive : Child := { exitCode := 5, stdout := [120, 10], stderr := [] }

/-- Child of the echo hello scenario: exit 0, stdout the line hello, no
stderr. -/
def childHello : Child := { exitCode := 0, stdout := [104, 101, 108, 108, 111, 10], stderr := [] }

/-- Child writing the line boom to stdout, on which the faulty sink
`lfBoom` raises. -/
def childBoom : Child := { exitCode := 0, stdout := [98, 111, 111, 109, 10], stderr := [] }

/-- A logging sink that raises exactly on the line boom. -/
def lfBoom : String → Bool := fun s => s == "boom\n"

/-- The outcome of running `childBoom` under `lfBoom` with the reader
enqueuing before the first poll iteration. -/
def outBoom : RunOutcome :=
  { result := RunRet.raised "monitoring exception", stdout_lines := ["boom\n"],
    stderr_lines := [], stderrLog := none, killed := false, errorLogged := true }

/-- Child writing invalid UTF-8 (a 0xFF byte) to both streams. -/
def childBadBytes : Child :=
  { exitCode := 0, stdout := [255, 104, 105, 10], stderr := [255, 104, 105] }

/-- Child exiting with status 2 after writing oops to stderr. -/
def childErr : Child := { exitCode := 2, stdout := [], stderr := [111, 111, 112, 115] }

/-- An already-reaped process handle: exited, returncode cached. -/
def procReaped : PTimed :=
  { exitTime := some 0, exitCode := 3, rc := some 3, ignoresKill := false,
    killRaises := false, logRaises := false }

/-- A process that ignores the kill signal and exits on its own at absolute
time `d`. -/
def stubbornAt (d : Nat) : PTimed :=
  { exitTime := some d, exitCode := 7, rc := none, ignoresKill := true,
    killRaises := false, logRaises := false }

/-- C1: for every Command whose executable spawns successfully and whose
run returns (the polling loop reached completion and no monitoring
exception aborted it), `CLICommand.run` returns exactly the child process
exit status; the unconditional kill/wait cleanup is applied inside
`finishRun` and does not alter the returned status, because the polling
loop only ends once `poll` cached the exit status, after which the kill is
the no-op branch of `Popen.send_signal` and the wait returns the cached
status. -/
theorem C1_run_returns_child_exit_status (c : Child) (lf : String → Bool) (sched : List Ev)
    (hdone : (exec c lf sched).phase = Phase.done) :
    ∃ out, CLICommand.run (some c) lf sched = some out ∧ out.result = RunRet.ok c.exitCode := by
  obtain ⟨-, -, hpr, -⟩ := inv_exec c lf sched
  obtain ⟨h1, h2⟩ := hpr (Or.inr hdone)
  refine ⟨finishRun c (exec c lf sched), run_done c lf sched hdone, ?_⟩
  rw [finishRun_fields c _ h1 h2]

theorem C1_run_returns_child_exit_status_witness :
    ∃ out, CLICommand.run (some childFive) noLogFail [Ev.childExits, Ev.main, Ev.main]
        = some out ∧ out.result = RunRet.ok 5 :=
  C1_run_returns_child_exit_status childFive noLogFail [Ev.childExits, Ev.main, Ev.main]
    (by decide)

/-- C2 counterexample: the child writes one line and the run completes
normally (`safe_kill_processes` ran, status 0 returned), yet zero lines
were captured. The schedule is realizable without any assumption on
`readline` blocking: the reader thread promptly reads the line
(`readerRead`: `out.readline()` has returned it into the loop variable of
`enqueue_output`) and is then preempted before executing `queue.put(line)`;
the child exits; the main thread sees the exit in `poll`, runs the final
drain of `_cleanup_process`, whose `while not queue.empty()` guard is
false because the put has not happened yet, and completes the run; the
`queue.put` lands only afterwards (the queue holds the line once the run is
over), so the line is lost. Nothing in the code orders the put before the
final empty check. -/
theorem C2_lost_line_cex :
    (splitLinesBytes childHello.stdout).length = 1 ∧
    CLICommand.run (some childHello) noLogFail
        [Ev.readerRead, Ev.childExits, Ev.main, Ev.main, Ev.readerPut]
      = some ⟨RunRet.ok 0, [], [], none, true, false⟩ ∧
    (exec childHello noLogFail
        [Ev.readerRead, Ev.childExits, Ev.main, Ev.main, Ev.readerPut]).queue
      = [[104, 101, 108, 108, 111, 10]] := by decide

/-- C2 amended: the captured stdout sequence is always an in-order prefix
of the lines the child emitted (no reordering, duplication or fabrication),
and it has exactly N entries whenever the reader thread has read and put
every line and the drain loops consumed them all before the final drain
ended; a line whose `queue.put` has not executed when the final drain
observes an empty queue is lost, as the counterexample shows. -/
theorem C2_stdout_in_emission_order (c : Child) (lf : String → Bool) (sched : List Ev) :
    (∃ rest, (splitLinesBytes c.stdout).map (decodeBytes DecodeErrMode.ignore)
        = (exec c lf sched).captured ++ rest) ∧
    ((exec c lf sched).queue = [] → (exec c lf sched).inflight = none →
      (exec c lf sched).pending = [] →
      (exec c lf sched).captured
        = (splitLinesBytes c.stdout).map (decodeBytes DecodeErrMode.ignore)) := by
  obtain ⟨-, -, -, taken, hdec, hcap⟩ := inv_exec c lf sched
  constructor
  · refine ⟨((exec c lf sched).queue ++ (exec c lf sched).inflight.toList
        ++ (exec c lf sched).pending).map (decodeBytes DecodeErrMode.ignore), ?_⟩
    rw [hdec, hcap]
    simp
  · intro hq hi hp
    rw [hcap, hdec, hq, hi, hp]
    simp

theorem C2_stdout_in_emission_order_witness :
    (exec childHello noLogFail
        [Ev.readerRead, Ev.readerPut, Ev.childExits, Ev.main, Ev.main, Ev.main]).captured
      = (splitLinesBytes childHello.stdout).map (decodeBytes DecodeErrMode.ignore) :=
  (C2_stdout_in_emission_order childHello noLogFail
    [Ev.readerRead, Ev.readerPut, Ev.childExits, Ev.main, Ev.main, Ev.main]).2
    (by decide) (by decide) (by decide)

/-- C3 counterexample: an exception raised while polling (here the logging
sink raising on the line boom) is logged by the `except` clause of `run`
and then RE-RAISED (`raise err`), so it does propagate to the caller, and
the explicit `safe_kill_processes` termination step never runs: the claim
that such exceptions never propagate and never prevent the termination
step is false on the code. -/
theorem C3_monitoring_exception_escapes_cex :
    CLICommand.run (some childBoom) lfBoom [Ev.readerRead, Ev.readerPut, Ev.main] = some outBoom ∧
    outBoom.result = RunRet.raised "monitoring exception" ∧
    outBoom.killed = false ∧ outBoom.errorLogged = true := by decide

/-- C3 amended: an exception raised during polling or draining is logged by
the `except` clause of `run` and re-raised to the caller, and it skips the
explicit bounded termination step (`safe_kill_processes` is only reached on
the normal path); when `run` returns normally the termination step did
run. Only exceptions arising inside `safe_kill_processes` itself are
absorbed (see the C9 theorem: that function is total). -/
theorem C3_monitoring_exceptions_reraise (c : Child) (lf : String → Bool) (sched : List Ev)
    (out : RunOutcome) (h : CLICommand.run (some c) lf sched = some out) :
    (out.result.isOk = true → out.killed = true ∧ out.errorLogged = false) ∧
    (out.result.isOk = false → out.errorLogged = true ∧ out.killed = false) := by
  have hrw : CLICommand.run (some c) lf sched =
      match (exec c lf sched).phase with
      | Phase.done => some (finishRun c (exec c lf sched))
      | Phase.aborted => some (abortOutcome c lf sched)
      | Phase.poll => none
      | Phase.flush => none := rfl
  rw [hrw] at h
  cases hph : (exec c lf sched).phase <;> rw [hph] at h
  · simp at h
  · simp at h
  · simp only [Option.some.injEq] at h
    subst h
    constructor
    · intro _
      exact ⟨rfl, rfl⟩
    · intro hbad
      simp [finishRun, RunRet.isOk] at hbad
  · simp only [Option.some.injEq] at h
    subst h
    constructor
    · intro hbad
      simp [abortOutcome, RunRet.isOk] at hbad
    · intro _
      exact ⟨rfl, rfl⟩

theorem C3_monitoring_exceptions_reraise_witness :
    ((outBoom.result.isOk = true → outBoom.killed = true ∧ outBoom.errorLogged = false) ∧
      (outBoom.result.isOk = false → outBoom.errorLogged = true ∧ outBoom.killed = false)) ∧
    outBoom.errorLogged = true ∧ outBoom.killed = false := by
  have h := C3_monitoring_exceptions_reraise childBoom lfBoom [Ev.readerRead, Ev.readerPut, Ev.main] outBoom
    (by decide)
  exact ⟨h, h.2 (by decide)⟩

/-- C4: when the spawn itself fails, `run` logs the failure and re-raises
it; no exit status is returned, no stdout or stderr lines are captured
(`Popen` is the first statement of the `try`, so the object still holds the
empty lists set in `__init__`), and no cleanup runs against a process that
was never created. -/
theorem C4_spawn_error_propagates (lf : String → Bool) (sched : List Ev) :
    CLICommand.run none lf sched = some spawnFailOutcome ∧
    spawnFailOutcome.result = RunRet.raised "spawn failure" ∧
    spawnFailOutcome.errorLogged = true ∧
    spawnFailOutcome.stdout_lines = [] ∧
    spawnFailOutcome.stderr_lines = [] ∧
    spawnFailOutcome.killed = false :=
  ⟨rfl, rfl, rfl, rfl, rfl, rfl⟩

/-- C5: `process_command` rejects the empty argument list before any
process or thread exists: it logs a configuration error, returns 1, and
never constructs or runs a `CLICommand`, whatever the environment (spawn
behaviour, logging sink, schedule) would have been. -/
theorem C5_empty_args_rejected (spawn : Option Child) (lf : String → Bool) (sched : List Ev) :
    process_command [] spawn lf sched
      = some { ret := RunRet.ok 1, configErrorLogged := true, spawned := false } := rfl

/-- C6 counterexample: the source decodes with errors set to ignore, not
replace: on the byte sequence FF 68 69 the code produces hi (the invalid
byte is dropped), while replacement-character decoding would produce a
U+FFFD followed by hi; the two disagree, and a run whose child writes those
bytes to stderr captures hi with no replacement character. -/
theorem C6_ignore_not_replace_cex :
    decodeBytes DecodeErrMode.ignore [255, 104, 105] = "hi" ∧
    decodeBytes DecodeErrMode.replace [255, 104, 105] = "\uFFFDhi" ∧
    decodeBytes DecodeErrMode.ignore [255, 104, 105]
      ≠ decodeBytes DecodeErrMode.replace [255, 104, 105] ∧
    CLICommand.run (some ⟨0, [], [255, 104, 105]⟩) noLogFail [Ev.childExits, Ev.main, Ev.main]
      = some ⟨RunRet.ok 0, [], ["hi"], some (LogLevel.warning, "hi"), true, false⟩ := by decide

/-- C6 amended: byte sequences that are not valid UTF-8 are decoded with
the invalid bytes dropped (errors ignore) rather than raising, both for
captured stdout lines and for the stderr block: a child writing FF 68 69 0A
to stdout and FF 68 69 to stderr completes normally with the invalid byte
removed from both captures. -/
theorem C6_invalid_bytes_dropped :
    CLICommand.run (some childBadBytes) noLogFail
        [Ev.readerRead, Ev.readerPut, Ev.childExits, Ev.main, Ev.main, Ev.main]
      = some ⟨RunRet.ok 0, ["hi\n"], ["hi"], some (LogLevel.warning, "hi"), true, false⟩ := by
  decide

/-- C7: when `run` returns normally the child process has exited (the
polling loop only terminates once `poll` reports completion, and the drain
phase is entered with the exit status cached), and the termination
primitive applied to an already-exited, already-reaped process is a no-op:
the kill takes the returncode-already-set branch of `Popen.send_signal`,
the wait returns immediately (elapsed time 0), and nothing raises or times
out. -/
theorem C7_no_process_left_running (c : Child) (lf : String → Bool) (sched : List Ev)
    (hdone : (exec c lf sched).phase = Phase.done) :
    (exec c lf sched).status = some c.exitCode ∧
    ∀ (p : PTimed) (v : Int), p.rc = some v → p.killRaises = false →
      (safe_kill_processes [p]).procs = [p] ∧ (safe_kill_processes [p]).elapsed = 0 ∧
        (safe_kill_processes [p]).timedOut = false := by
  obtain ⟨-, -, hpr, -⟩ := inv_exec c lf sched
  refine ⟨(hpr (Or.inr hdone)).2, ?_⟩
  intro p v hv hk
  obtain ⟨h1, h2, -, h4⟩ := sk_single_reaped p v hv hk
  exact ⟨h1, h2, h4⟩

theorem C7_no_process_left_running_witness :
    (exec childFive noLogFail [Ev.childExits, Ev.main, Ev.main]).status = some 5 ∧
    (safe_kill_processes [procReaped]).procs = [procReaped] ∧
    (safe_kill_processes [procReaped]).elapsed = 0 ∧
    (safe_kill_processes [procReaped]).timedOut = false := by
  obtain ⟨h1, h2⟩ := C7_no_process_left_running childFive noLogFail
    [Ev.childExits, Ev.main, Ev.main] (by decide)
  exact ⟨h1, h2 procReaped 3 (by decide) (by decide)⟩

/-- C8: on a normally returning run, stderr content is logged at error
severity exactly when the exit status is non-zero and at warning severity
when it is zero (`bool(ret)` selects the logger function), and the captured
stderr line sequence is the split of the decoded stderr block when the
child wrote to stderr and stays empty otherwise. -/
theorem C8_stderr_severity (c : Child) (lf : String → Bool) (sched : List Ev)
    (hdone : (exec c lf sched).phase = Phase.done) :
    ∃ out, CLICommand.run (some c) lf sched = some out ∧
      (c.stderr = [] → out.stderrLog = none ∧ out.stderr_lines = []) ∧
      (c.stderr ≠ [] →
        out.stderrLog = some ((if c.exitCode ≠ 0 then LogLevel.error else LogLevel.warning),
          decodeBytes DecodeErrMode.ignore c.stderr) ∧
        out.stderr_lines = pySplitNl (decodeBytes DecodeErrMode.ignore c.stderr)) := by
  obtain ⟨-, -, hpr, -⟩ := inv_exec c lf sched
  obtain ⟨h1, h2⟩ := hpr (Or.inr hdone)
  refine ⟨finishRun c (exec c lf sched), run_done c lf sched hdone, ?_, ?_⟩
  · rw [finishRun_fields c _ h1 h2]
    intro he
    simp [he]
  · rw [finishRun_fields c _ h1 h2]
    intro he
    have hne : c.stderr.isEmpty = false := by
      cases hcs : c.stderr with
      | nil => exact absurd hcs he
      | cons a t => rfl
    simp [hne]

theorem C8_stderr_severity_witness :
    ∃ out, CLICommand.run (some childErr) noLogFail [Ev.childExits, Ev.main, Ev.main]
        = some out ∧
      out.stderrLog = some (LogLevel.error, "oops") ∧ out.stderr_lines = ["oops"] := by
  obtain ⟨out, hrun, -, hne⟩ := C8_stderr_severity childErr noLogFail
    [Ev.childExits, Ev.main, Ev.main] (by decide)
  obtain ⟨hl, hs⟩ := hne (by decide)
  refine ⟨out, hrun, ?_, ?_⟩
  · rw [hl]
    decide
  · rw [hs]
    decide

/-- C9 counterexample: the wait bound is 30 time units per process, not per
batch: with two kill-resistant processes dying on their own at times 29 and
58, each individual `proc.wait(timeout=30)` succeeds, no timeout occurs,
both terminations are logged, and the batch wait lasts 58 time units, more
than 30. -/
theorem C9_batch_wait_over_30_cex :
    (safe_kill_processes [stubbornAt 29, stubbornAt 58]).elapsed = 58 ∧
    ¬(safe_kill_processes [stubbornAt 29, stubbornAt 58]).elapsed ≤ 30 ∧
    (safe_kill_processes [stubbornAt 29, stubbornAt 58]).timedOut = false ∧
    (safe_kill_processes [stubbornAt 29, stubbornAt 58]).termLogCount = 2 := by decide

/-- C9 amended: `safe_kill_processes` attempts to kill every process in the
batch with a per-process log entry, then waits for each in turn with a
30-time-unit timeout per `wait` call, so the batch wait is bounded by 30
times the batch size (not by 30 per batch), the first timeout abandoning
the remaining waits; when no timeout occurs every confirmed termination is
logged; the function is total (every exception inside it is caught), so it
never raises to its caller. -/
theorem C9_kill_wait_bounds (procs : List PTimed) :
    procs.length ≤ (safe_kill_processes procs).killLogs.length ∧
    (safe_kill_processes procs).elapsed ≤ 30 * procs.length ∧
    ((safe_kill_processes procs).timedOut = false →
      (safe_kill_processes procs).termLogCount = procs.length) := by
  refine ⟨killPhaseLogs_len procs, ?_, ?_⟩
  · have h := waitLoop_now_le (procs.map (procKillAt 0)) 0
    simpa [safe_kill_processes] using h
  · intro hto
    have h := waitLoop_complete (procs.map (procKillAt 0)) 0 hto
    simpa [safe_kill_processes] using h

theorem C9_kill_wait_bounds_witness :
    [stubbornAt 29].length ≤ (safe_kill_processes [stubbornAt 29]).killLogs.length ∧
    (safe_kill_processes [stubbornAt 29]).elapsed ≤ 30 * [stubbornAt 29].length ∧
    (safe_kill_processes [stubbornAt 29]).termLogCount = [stubbornAt 29].length := by
  obtain ⟨h1, h2, h3⟩ := C9_kill_wait_bounds [stubbornAt 29]
  exact ⟨h1, h2, h3 (by decide)⟩

/-- C10 counterexample: for the echo hello scenario the run does return
status 0 with empty stderr, but the captured stdout sequence is the line
with its trailing newline (readline keeps the delimiter and nothing strips
it), so it is not the claimed hello without a newline. -/
theorem C10_trailing_newline_cex :
    CLICommand.run (some childHello) noLogFail
        [Ev.readerRead, Ev.readerPut, Ev.childExits, Ev.main, Ev.main, Ev.main]
      = some ⟨RunRet.ok 0, ["hello\n"], [], none, true, false⟩ ∧
    (["hello\n"] : List String) ≠ ["hello"] := by decide

/-- C10 amended: for the Command echo hello, on a schedule delivering the
output before the final drain, `run` returns exit status 0, the captured
stdout line sequence is the single line hello with its trailing newline,
and the captured stderr sequence is empty. -/
theorem C10_echo_hello_scenario :
    ∃ out, CLICommand.run (some childHello) noLogFail
        [Ev.readerRead, Ev.readerPut, Ev.childExits, Ev.main, Ev.main, Ev.main] = some out ∧
      out.result = RunRet.ok 0 ∧ out.stdout_lines = ["hello\n"] ∧ out.stderr_lines = [] :=
  ⟨⟨RunRet.ok 0, ["hello\n"], [], none, true, false⟩, by decide, rfl, rfl, rfl⟩

end ExportMono
